import Mathlib

/-!
Verification of the standings-recalculation engine of the FantasyFootballWebApp
repository against its natural-language specification.

The definitions below are a shallow embedding of `src/server.js` (the current
backend).  JavaScript numbers are modelled as rationals (`ℚ`); a score field
holds `Option ℚ`, where `none` models a `null`/`undefined`/non-numeric value
(anything for which `parseFloat` yields `NaN`).  JavaScript objects used as
string-keyed maps are modelled as association lists or as functions
`String → Option _`.  Definitions marked `Modelled from the spec` follow the
wording of `spec.md` instead and are used only to compare spec and code.
-/

namespace FFApp

/-- One roster entry of a season (`season.teams[i]` in `src/server.js`).
`meta` stands for the extra, engine-irrelevant fields of the roster object
(owner, state, playoff flags, …) that object spread copies around. -/
structure Team where
  name : String
  meta : Option String
deriving DecidableEq, Repr

/-- One matchup of a week (`week.matchups[i]`).  A score is `none` when the
stored value is `null`/`undefined`/non-numeric, `some q` when `parseFloat`
yields the number `q`. -/
structure Matchup where
  team1 : String
  team2 : String
  team1Score : Option ℚ
  team2Score : Option ℚ
deriving DecidableEq, Repr

/-- One week (`season.weeks[weekNum]`). -/
structure Week where
  matchups : List Matchup
deriving DecidableEq, Repr

/-- One row of `season.standings`.  The stat fields are plain values because
`recalculateStandings` reads them through `team.wins || 0` (absent ≡ 0) and
always overwrites them on output.  `place` is always reassigned at the end of
a recompute; `prevPlace` and `meta` are carried metadata. -/
structure Row where
  name : String
  wins : Nat
  losses : Nat
  ties : Nat
  pf : ℚ
  pa : ℚ
  place : Nat
  prevPlace : Option Nat
  meta : Option String
deriving DecidableEq, Repr

/-- One season object (`seasonsData[year]`).  `teams = none` models a missing
`teams` property, `weeks = none` models a missing / non-object / array `weeks`
property, `oldFormat` models `Array.isArray(season)`. -/
structure Season where
  teams : Option (List Team)
  weeks : Option (List (String × Week))
  standings : Option (List Row)
  oldFormat : Bool
deriving DecidableEq, Repr

/-- The per-team stat accumulator (`stats[name]` in `recalculateStandings`). -/
structure StatLine where
  wins : Nat
  losses : Nat
  ties : Nat
  pf : ℚ
  pa : ℚ
deriving DecidableEq, Repr

def zeroLine : StatLine := { wins := 0, losses := 0, ties := 0, pf := 0, pa := 0 }

/-- The `stats` object: a map from team name to its accumulator. -/
def Stats : Type := String → Option StatLine

/-- `stats[team.name] = {wins: 0, ...}` over `season.teams.forEach`: after the
loop, a key exists exactly for the roster names and every value is zero. -/
def initStats (ts : List Team) : Stats :=
  fun n => if ts.any fun t => t.name = n then some zeroLine else none

/-- Point update of one key of the `stats` object (a no-op on absent keys,
matching the `if (!stats[name])` guards in the source). -/
def updateStat (st : Stats) (n : String) (f : StatLine → StatLine) : Stats :=
  fun m => if m = n then (st m).map f else st m

/-- `parseFloat(x) || 0`: a missing/non-numeric score and an explicit `0` both
collapse to `0`. -/
def effScore (s : Option ℚ) : ℚ := s.getD 0

/-- Processing of one matchup inside the week loop of `recalculateStandings`
(`src/server.js` lines 107–144): accumulate points for both sides, and when
both effective scores are strictly positive award a win/loss or a tie and
count the game.  Sequential updates reproduce the aliasing of the JS object
mutation when `team1 = team2`. -/
def processMatchup (acc : Stats × Nat) (m : Matchup) : Stats × Nat :=
  let score1 := effScore m.team1Score
  let score2 := effScore m.team2Score
  match acc.1 m.team1, acc.1 m.team2 with
  | some _, some _ =>
    let st := updateStat acc.1 m.team1 fun l => { l with pf := l.pf + score1, pa := l.pa + score2 }
    let st := updateStat st m.team2 fun l => { l with pf := l.pf + score2, pa := l.pa + score1 }
    if 0 < score1 ∧ 0 < score2 then
      if score2 < score1 then
        (updateStat (updateStat st m.team1 fun l => { l with wins := l.wins + 1 })
          m.team2 fun l => { l with losses := l.losses + 1 }, acc.2 + 1)
      else if score1 < score2 then
        (updateStat (updateStat st m.team2 fun l => { l with wins := l.wins + 1 })
          m.team1 fun l => { l with losses := l.losses + 1 }, acc.2 + 1)
      else
        (updateStat (updateStat st m.team1 fun l => { l with ties := l.ties + 1 })
          m.team2 fun l => { l with ties := l.ties + 1 }, acc.2 + 1)
    else (st, acc.2)
  | _, _ => acc

/-- The `Object.entries(season.weeks).forEach` double loop; the second
component is `processedGames`. -/
def processWeeks (st : Stats) (ws : List (String × Week)) : Stats × Nat :=
  ws.foldl (fun acc w => w.2.matchups.foldl processMatchup acc) (st, 0)

/-- The stat fields of a standings row, as a `StatLine` (the five values the
fallback of lines 155–161 copies, each read through `|| 0`). -/
def Row.statline (r : Row) : StatLine :=
  { wins := r.wins, losses := r.losses, ties := r.ties, pf := r.pf, pa := r.pa }

/-- The fallback of lines 152–164: when no game was processed, overwrite every
roster-known name that appears in the existing standings with that row's
end-of-season stats. -/
def applyFallback (st : Stats) (rows : List Row) : Stats :=
  rows.foldl (fun st r => updateStat st r.name fun _ => r.statline) st

/-- `{...team, ...existingTeam, wins: ..., ...}` of lines 168–181: stats come
from the accumulator, `prevPlace`/`place` only from the existing row, `meta`
from the existing row when present, else from the roster entry. -/
def mkRow (t : Team) (existing : Option Row) (l : StatLine) : Row :=
  { name := t.name
    wins := l.wins, losses := l.losses, ties := l.ties, pf := l.pf, pa := l.pa
    place := (existing.map Row.place).getD 0
    prevPlace := existing.bind Row.prevPlace
    meta := (existing.bind Row.meta).orElse fun _ => t.meta }

/-- `season.standings = season.teams.map(...)` with
`season.standings?.find(t => t.name === team.name) || {}`. -/
def buildRows (ts : List Team) (old : Option (List Row)) (st : Stats) : List Row :=
  ts.map fun t =>
    mkRow t ((old.getD []).find? fun r => r.name = t.name) ((st t.name).getD zeroLine)

/-- The JS comparator of lines 184–187 returns a negative number on `(a, b)`
(sorting `a` strictly before `b`) exactly when `rowBefore a b` holds. -/
def rowBefore (a b : Row) : Bool :=
  if a.wins ≠ b.wins then decide (b.wins < a.wins) else decide (b.pf < a.pf)

/-- The non-strict counterpart: `a` may be placed before `b`.  A stable sort
by the JS comparator orders by this relation, keeping input order on ties. -/
def rowLE (a b : Row) : Prop := rowBefore b a = false

instance : DecidableRel rowLE := fun a b => instDecidableEqBool (rowBefore b a) false

/-- `Array.prototype.sort` is stable and the comparator is consistent, so the
sort of line 184 computes the stable insertion sort by `rowLE`. -/
def sortRows (l : List Row) : List Row := List.insertionSort rowLE l

/-- `season.standings.forEach((team, idx) => team.place = idx + 1)`,
generalised over the starting index. -/
def assignPlacesFrom (k : Nat) : List Row → List Row
  | [] => []
  | r :: rs => { r with place := k } :: assignPlacesFrom (k + 1) rs

def assignPlaces (l : List Row) : List Row := assignPlacesFrom 1 l

/-- The stats map used to build the rows: the accumulation pass, then the
zero-games fallback (`season.standings` missing skips the fallback; an empty
array enters it but overwrites nothing). -/
def statsFor (ts : List Team) (ws : List (String × Week)) (old : Option (List Row)) : Stats :=
  if (processWeeks (initStats ts) ws).2 = 0 then
    match old with
    | some rows => applyFallback (processWeeks (initStats ts) ws).1 rows
    | none => (processWeeks (initStats ts) ws).1
  else (processWeeks (initStats ts) ws).1

/-- The standings list produced by one run of the engine on a season that
passes all the guards. -/
def newStandings (ts : List Team) (ws : List (String × Week)) (old : Option (List Row)) :
    List Row :=
  assignPlaces (sortRows (buildRows ts old (statsFor ts ws old)))

/-- `recalculateStandings(year)` restricted to the season object it mutates
(`src/server.js` lines 71–195): the three early-return guards, then the
replacement of `season.standings`. -/
def recalcSeason (s : Season) : Season :=
  match s.teams with
  | none => s
  | some ts =>
    if s.oldFormat then s
    else
      match s.weeks with
      | none => s
      | some ws => { s with standings := some (newStandings ts ws s.standings) }

/-- `recalculateStandings(year)` on the whole in-memory `seasonsData` map
(no entry for `year` means the `!season` guard fires and nothing changes). -/
def recalcYear (data : List (String × Season)) (year : String) : List (String × Season) :=
  data.map fun p => if p.1 = year then (p.1, recalcSeason p.2) else p

/-- `seasonsData[year]` as a read. -/
def getSeason (data : List (String × Season)) (year : String) : Option Season :=
  (data.find? fun p => p.1 = year).map fun p => p.2

/-- `seasonsData[year].weeks[weekNum] = { matchups }` of the PUT handler
(line 237–239): initialise `weeks` to `{}` when missing, then set the key. -/
def setWeek (s : Season) (weekNum : String) (ms : List Matchup) : Season :=
  let ws := s.weeks.getD []
  { s with
    weeks :=
      some
        (if ws.any fun p => p.1 = weekNum then
          ws.map fun p => if p.1 = weekNum then (p.1, Week.mk ms) else p
        else ws ++ [(weekNum, Week.mk ms)]) }

/-- The possible responses of `PUT /api/seasons/:year/weeks/:weekNum`. -/
inductive PutResponse where
  | ok (standings : List Row)
  | notFound
  | invalid
  | saveFailed
deriving DecidableEq, Repr

/-- The `PUT /api/seasons/:year/weeks/:weekNum` handler (`src/server.js` lines
230–248).  `body = none` models a request whose `matchups` is not an array;
`saveOk` models whether the `saveData()` file write succeeds.  The result is
the HTTP response together with the in-memory `seasonsData` after the
request. -/
def putWeek (data : List (String × Season)) (year weekNum : String)
    (body : Option (List Matchup)) (saveOk : Bool) :
    PutResponse × List (String × Season) :=
  match getSeason data year with
  | none => (PutResponse.notFound, data)
  | some _ =>
    match body with
    | none => (PutResponse.invalid, data)
    | some ms =>
      let data1 := data.map fun p => if p.1 = year then (p.1, setWeek p.2 weekNum ms) else p
      let data2 := recalcYear data1 year
      if saveOk then
        (PutResponse.ok (((getSeason data2 year).bind Season.standings).getD []), data2)
      else (PutResponse.saveFailed, data2)

/-! ### Derived accessors used to state the claims -/

def winsOf (st : Stats) (n : String) : Nat := ((st n).map StatLine.wins).getD 0

def lossesOf (st : Stats) (n : String) : Nat := ((st n).map StatLine.losses).getD 0

def tiesOf (st : Stats) (n : String) : Nat := ((st n).map StatLine.ties).getD 0

/-- Wins + losses + ties of one accumulator entry. -/
def wltOf (st : Stats) (n : String) : Nat :=
  ((st n).map fun l => l.wins + l.losses + l.ties).getD 0

/-- A matchup the engine actually tallies into the win/loss/tie columns: both
teams resolve in the roster and both effective scores are strictly positive. -/
def countedMatchup (ts : List Team) (m : Matchup) : Bool :=
  (ts.any fun t => t.name = m.team1) && (ts.any fun t => t.name = m.team2) &&
    decide (0 < effScore m.team1Score) && decide (0 < effScore m.team2Score)

/-- Number of tallied matchups, across all weeks, in which the name `n`
appears. -/
def playedCountFor (ts : List Team) (ws : List (String × Week)) (n : String) : Nat :=
  ((ws.map fun w => w.2.matchups).flatten).countP fun m =>
    countedMatchup ts m && (decide (m.team1 = n) || decide (m.team2 = n))

/-- `processedGames` of a season's weeks. -/
def gamesOf (ts : List Team) (ws : List (String × Week)) : Nat :=
  (processWeeks (initStats ts) ws).2

/-- The sort key the engine's comparator actually looks at. -/
def rowKey (r : Row) : Nat × ℚ := (r.wins, r.pf)

/-- Forgets the `place` field (which the engine always reassigns). -/
def stripPlace (r : Row) : Row := { r with place := 0 }

/-! ### Definitions modelled from the spec

These follow the wording of `spec.md`, not the source, and exist only to
compare the specified behaviour with the implemented one.  The playoff-start
threshold is 15 (the repository's data scripts create playoff weeks 15–17). -/

/-- Modelled from the spec: a matchup is *played* when both scores are
present and numeric, regardless of value (spec §4.1 step 2, design note on
the resolved 0–0 ambiguity). -/
def specPlayed (m : Matchup) : Bool := m.team1Score.isSome && m.team2Score.isSome

/-- Modelled from the spec: a week key is regular-phase when it parses as an
integer below the playoff-start threshold 15. -/
def specRegularKey (k : String) : Bool :=
  match k.toNat? with
  | some n => decide (n < 15)
  | none => false

/-- Modelled from the spec: the number of regular-phase matchups, across all
weeks, in which team `n` appears with both scores present (the count that
claim C1 says `wins+losses+ties` must equal). -/
def specPlayedRegularCountFor (ws : List (String × Week)) (n : String) : Nat :=
  ((ws.filter fun w => specRegularKey w.1).map fun w => w.2.matchups).flatten.countP
    fun m => specPlayed m && (decide (m.team1 = n) || decide (m.team2 = n))

/-- Modelled from the spec: regular-season wins of team `n` — played
regular-phase matchups that `n` wins by the higher score (spec §4.1 step 4's
first sort key). -/
def specRegularWins (ws : List (String × Week)) (n : String) : Nat :=
  ((ws.filter fun w => specRegularKey w.1).map fun w => w.2.matchups).flatten.countP
    fun m =>
      specPlayed m &&
        ((decide (m.team1 = n) && decide (effScore m.team2Score < effScore m.team1Score)) ||
          (decide (m.team2 = n) && decide (effScore m.team1Score < effScore m.team2Score)))

/-- Modelled from the spec: one aggregation step of §4.1 step 3 restricted to
what the checkpoint ordering needs — on a played matchup award the win/loss
or tie and accumulate points. -/
def specProcessMatchup (st : Stats) (m : Matchup) : Stats :=
  if specPlayed m then
    let s1 := effScore m.team1Score
    let s2 := effScore m.team2Score
    let st := updateStat st m.team1 fun l => { l with pf := l.pf + s1, pa := l.pa + s2 }
    let st := updateStat st m.team2 fun l => { l with pf := l.pf + s2, pa := l.pa + s1 }
    if s2 < s1 then
      updateStat (updateStat st m.team1 fun l => { l with wins := l.wins + 1 })
        m.team2 fun l => { l with losses := l.losses + 1 }
    else if s1 < s2 then
      updateStat (updateStat st m.team2 fun l => { l with wins := l.wins + 1 })
        m.team1 fun l => { l with losses := l.losses + 1 }
    else
      updateStat (updateStat st m.team1 fun l => { l with ties := l.ties + 1 })
        m.team2 fun l => { l with ties := l.ties + 1 }
  else st

/-- Modelled from the spec: the regular-phase *scored* weeks (at least one
played matchup), with integer keys, sorted ascending by week number
(spec §4.1 steps 2–3). -/
def specRegularScoredWeeks (ws : List (String × Week)) : List (Nat × Week) :=
  List.insertionSort (fun a b => a.1 ≤ b.1)
    ((ws.filterMap fun p => (p.1.toNat?).map fun k => (k, p.2)).filter fun q =>
      decide (q.1 < 15) && q.2.matchups.any specPlayed)

/-- Modelled from the spec: the checkpoint rank map — the rank ordering (step
4's ordering rule) of the aggregate through the second-to-last regular-phase
scored week (spec §4.1 step 3, "Checkpoint capture"). -/
def specCheckpointRanks (ts : List Team) (ws : List (String × Week)) : List (String × Nat) :=
  let pre := (specRegularScoredWeeks ws).dropLast
  let st := pre.foldl (fun st w => w.2.matchups.foldl specProcessMatchup st) (initStats ts)
  (assignPlaces (sortRows (buildRows ts none st))).map fun r => (r.name, r.place)

/-! ### Concrete inputs for counterexamples and witnesses -/

def teamA : Team := { name := "A", meta := some "ownerX" }

def teamB : Team := { name := "B", meta := some "ownerY" }

def mkMatch (n1 n2 : String) (s1 s2 : Option ℚ) : Matchup :=
  { team1 := n1, team2 := n2, team1Score := s1, team2Score := s2 }

/-- A season with a 0–0 matchup (both scores present) in week 1 and two
played playoff-week matchups. -/
def exSeasonC1 : Season :=
  { teams := some [teamA, teamB]
    weeks := some
      [("1", Week.mk [mkMatch "A" "B" (some 0) (some 0)]),
        ("15", Week.mk [mkMatch "A" "B" (some 10) (some 8)]),
        ("16", Week.mk [mkMatch "A" "B" (some 10) (some 8)])]
    standings := none, oldFormat := false }

/-- A season whose only matchup is a present 0–0. -/
def exSeasonC2 : Season :=
  { teams := some [teamA, teamB]
    weeks := some [("1", Week.mk [mkMatch "A" "B" (some 0) (some 0)])]
    standings := none, oldFormat := false }

/-- Prior standings row carrying `prevPlace = 7` for team A. -/
def exOldRowA : Row :=
  { name := "A", wins := 3, losses := 1, ties := 0, pf := 100, pa := 90,
    place := 1, prevPlace := some 7, meta := none }

/-- Two regular scored weeks; the checkpoint (after week 1) ranks A first,
but the engine carries `prevPlace` over from the prior standings. -/
def exSeasonC3 : Season :=
  { teams := some [teamA, teamB]
    weeks := some
      [("1", Week.mk [mkMatch "A" "B" (some 10) (some 5)]),
        ("2", Week.mk [mkMatch "A" "B" (some 5) (some 10)])]
    standings := some [exOldRowA], oldFormat := false }

/-- A wins the only regular-phase game but B wins two playoff-week games. -/
def exSeasonC5 : Season :=
  { teams := some [teamA, teamB]
    weeks := some
      [("1", Week.mk [mkMatch "A" "B" (some 10) (some 5)]),
        ("15", Week.mk [mkMatch "A" "B" (some 5) (some 10)]),
        ("16", Week.mk [mkMatch "A" "B" (some 5) (some 10)])]
    standings := none, oldFormat := false }

/-- Zero scored weeks, but prior standings with non-zero stats. -/
def exSeasonC6 : Season :=
  { teams := some [teamA, teamB]
    weeks := some [("1", Week.mk [])]
    standings := some [exOldRowA], oldFormat := false }

/-- Two roster entries sharing the name but not the metadata. -/
def exSeasonC7 : Season :=
  { teams := some [{ name := "A", meta := some "ownerX" }, { name := "A", meta := some "ownerY" }]
    weeks := some []
    standings := none, oldFormat := false }

/-- A one-season data map used by the route-level claims. -/
def exData : List (String × Season) :=
  [("2024",
    { teams := some [teamA, teamB]
      weeks := some [("1", Week.mk [mkMatch "A" "B" (some 10) (some 5)])]
      standings := none, oldFormat := false })]

/-! ### Helper lemmas: stats updates and domains -/

theorem updateStat_same (st : Stats) (n : String) (f : StatLine → StatLine) :
    updateStat st n f n = (st n).map f := by
  simp [updateStat]

theorem updateStat_other (st : Stats) (n m : String) (f : StatLine → StatLine)
    (h : m ≠ n) : updateStat st n f m = st m := by
  simp [updateStat, h]

theorem updateStat_isSome (st : Stats) (n m : String) (f : StatLine → StatLine) :
    (updateStat st n f m).isSome = (st m).isSome := by
  unfold updateStat
  by_cases h : m = n <;> simp [h]

theorem processMatchup_isSome (acc : Stats × Nat) (m : Matchup) (n : String) :
    ((processMatchup acc m).1 n).isSome = (acc.1 n).isSome := by
  unfold processMatchup
  rcases h1 : acc.1 m.team1 with _ | l1 <;> rcases h2 : acc.1 m.team2 with _ | l2 <;>
    simp only [h1, h2]
  split_ifs <;> simp [updateStat_isSome]

theorem foldl_processMatchup_isSome (ms : List Matchup) (acc : Stats × Nat) (n : String) :
    ((ms.foldl processMatchup acc).1 n).isSome = (acc.1 n).isSome := by
  induction ms generalizing acc with
  | nil => rfl
  | cons m ms ih => rw [List.foldl_cons, ih, processMatchup_isSome]

theorem processWeeks_isSome (st : Stats) (ws : List (String × Week)) (n : String) :
    ((processWeeks st ws).1 n).isSome = (st n).isSome := by
  unfold processWeeks
  generalize hz : (st, 0) = z
  have hst : z.1 = st := by rw [← hz]
  rw [← hst]; clear hz hst
  induction ws generalizing z with
  | nil => rfl
  | cons w ws ih => rw [List.foldl_cons, ih, foldl_processMatchup_isSome]

theorem applyFallback_isSome (st : Stats) (rows : List Row) (n : String) :
    (applyFallback st rows n).isSome = (st n).isSome := by
  induction rows generalizing st with
  | nil => rfl
  | cons r rows ih => rw [applyFallback, List.foldl_cons, ← applyFallback, ih, updateStat_isSome]

theorem initStats_isSome_iff (ts : List Team) (n : String) :
    (initStats ts n).isSome ↔ n ∈ ts.map Team.name := by
  simp only [initStats]
  split
  · rename_i h
    simp only [List.any_eq_true, decide_eq_true_eq] at h
    obtain ⟨t, ht, hn⟩ := h
    simp only [Option.isSome_some, true_iff, List.mem_map]
    exact ⟨t, ht, hn⟩
  · rename_i h
    simp only [List.any_eq_true, decide_eq_true_eq] at h
    push_neg at h
    simp only [Option.isSome_none, Bool.false_eq_true, false_iff, List.mem_map]
    rintro ⟨t, ht, hn⟩
    exact h t ht hn

theorem statsFor_isSome (ts : List Team) (ws : List (String × Week))
    (old : Option (List Row)) (n : String) :
    (statsFor ts ws old n).isSome = (initStats ts n).isSome := by
  unfold statsFor
  split
  · split
    · rw [applyFallback_isSome, processWeeks_isSome]
    · rw [processWeeks_isSome]
  · rw [processWeeks_isSome]

/-! ### Helper lemmas: the comparator order -/

theorem rowLE_iff (a b : Row) :
    rowLE a b ↔ b.wins < a.wins ∨ (a.wins = b.wins ∧ b.pf ≤ a.pf) := by
  unfold rowLE rowBefore
  by_cases h : b.wins = a.wins
  · simp [h, not_lt]
  · have h2 : ¬ a.wins = b.wins := fun hc => h hc.symm
    simp only [ne_eq, h, not_false_eq_true, if_pos, h2, false_and, or_false,
      decide_eq_false_iff_not, not_lt]
    omega

instance : IsTotal Row rowLE := by
  constructor
  intro a b
  rw [rowLE_iff, rowLE_iff]
  rcases lt_trichotomy a.wins b.wins with h | h | h
  · exact Or.inr (Or.inl h)
  · rcases le_total a.pf b.pf with hp | hp
    · exact Or.inr (Or.inr ⟨h.symm, hp⟩)
    · exact Or.inl (Or.inr ⟨h, hp⟩)
  · exact Or.inl (Or.inl h)

instance : IsTrans Row rowLE := by
  constructor
  intro a b c
  rw [rowLE_iff, rowLE_iff, rowLE_iff]
  rintro (h1 | ⟨h1, h1p⟩) (h2 | ⟨h2, h2p⟩)
  · left; omega
  · left; omega
  · left; omega
  · right; exact ⟨by omega, le_trans h2p h1p⟩

/-- Inserting never changes which multiset of rows we have. -/
theorem sortRows_perm (l : List Row) : (sortRows l).Perm l :=
  List.perm_insertionSort rowLE l

theorem sortRows_sorted (l : List Row) : (sortRows l).Sorted rowLE :=
  List.sorted_insertionSort rowLE l

/-- Strictly-earlier rows have a different sort key. -/
theorem rowKey_ne_of_not_rowLE {a b : Row} (h : ¬ rowLE a b) : rowKey b ≠ rowKey a := by
  rw [rowLE_iff] at h
  push_neg at h
  intro hk
  have h1 : b.wins = a.wins := congrArg Prod.fst hk
  have h2 : b.pf = a.pf := congrArg Prod.snd hk
  rcases h with ⟨hlt, himp⟩
  have := himp h1.symm
  rw [h2] at this
  exact absurd le_rfl (not_le_of_lt this)

/-- Insertion keeps the key-equal sublist intact: stability of the sort. -/
theorem filter_orderedInsert_eq (x : Row) (l : List Row) :
    (List.orderedInsert rowLE x l).filter (fun r => decide (rowKey r = rowKey x)) =
      x :: l.filter fun r => decide (rowKey r = rowKey x) := by
  induction l with
  | nil => simp [List.orderedInsert]
  | cons y ys ih =>
    by_cases h : rowLE x y
    · rw [List.orderedInsert, if_pos h]
      simp
    · rw [List.orderedInsert, if_neg h]
      have hk : rowKey y ≠ rowKey x := rowKey_ne_of_not_rowLE h
      simp only [List.filter_cons, decide_eq_false hk, Bool.false_eq_true, if_false, ih]

theorem filter_orderedInsert_ne (x : Row) (l : List Row) (K : Nat × ℚ)
    (hK : K ≠ rowKey x) :
    (List.orderedInsert rowLE x l).filter (fun r => decide (rowKey r = K)) =
      l.filter fun r => decide (rowKey r = K) := by
  have hx : rowKey x ≠ K := Ne.symm hK
  induction l with
  | nil => simp [List.orderedInsert, hx]
  | cons y ys ih =>
    by_cases h : rowLE x y
    · rw [List.orderedInsert, if_pos h]
      simp only [List.filter_cons, decide_eq_false hx, Bool.false_eq_true, if_false]
    · rw [List.orderedInsert, if_neg h]
      simp only [List.filter_cons, ih]

/-- Stability of the whole sort: for every key, the key-equal rows appear in
the sorted output exactly in input order. -/
theorem filter_sortRows (l : List Row) (K : Nat × ℚ) :
    (sortRows l).filter (fun r => decide (rowKey r = K)) =
      l.filter fun r => decide (rowKey r = K) := by
  induction l with
  | nil => rfl
  | cons x xs ih =>
    show (List.orderedInsert rowLE x (sortRows xs)).filter _ = _
    by_cases hK : K = rowKey x
    · subst hK
      rw [filter_orderedInsert_eq, ih, List.filter_cons]
      simp
    · rw [filter_orderedInsert_ne x _ K hK, ih, List.filter_cons]
      have hx : rowKey x ≠ K := Ne.symm hK
      simp only [decide_eq_false hx, Bool.false_eq_true, if_false]

/-! ### Helper lemmas: place assignment -/

theorem assignPlacesFrom_map_place (k : Nat) (l : List Row) :
    (assignPlacesFrom k l).map Row.place = List.range' k l.length := by
  induction l generalizing k with
  | nil => rfl
  | cons r rs ih => simp [assignPlacesFrom, List.range', ih]

theorem assignPlacesFrom_map_name (k : Nat) (l : List Row) :
    (assignPlacesFrom k l).map Row.name = l.map Row.name := by
  induction l generalizing k with
  | nil => rfl
  | cons r rs ih => simp [assignPlacesFrom, ih]

theorem assignPlacesFrom_map_strip (k : Nat) (l : List Row) :
    (assignPlacesFrom k l).map stripPlace = l.map stripPlace := by
  induction l generalizing k with
  | nil => rfl
  | cons r rs ih => simp [assignPlacesFrom, ih, stripPlace]

theorem assignPlacesFrom_length (k : Nat) (l : List Row) :
    (assignPlacesFrom k l).length = l.length := by
  induction l generalizing k with
  | nil => rfl
  | cons r rs ih => simp [assignPlacesFrom, ih]

theorem mem_assignPlacesFrom {r : Row} {k : Nat} {l : List Row}
    (h : r ∈ assignPlacesFrom k l) : ∃ x ∈ l, r = { x with place := r.place } := by
  induction l generalizing k with
  | nil => cases h
  | cons x xs ih =>
    rcases List.mem_cons.mp h with he | hm
    · refine ⟨x, List.mem_cons_self x xs, ?_⟩
      rw [he]
    · obtain ⟨y, hy, hey⟩ := ih hm
      exact ⟨y, List.mem_cons_of_mem x hy, hey⟩

theorem exists_mem_assignPlacesFrom {x : Row} {l : List Row} (k : Nat) (h : x ∈ l) :
    ∃ y ∈ assignPlacesFrom k l, stripPlace y = stripPlace x := by
  induction l generalizing k with
  | nil => cases h
  | cons z zs ih =>
    rcases List.mem_cons.mp h with he | hm
    · subst he
      exact ⟨{ x with place := k }, List.mem_cons_self _ _, rfl⟩
    · obtain ⟨y, hy, hey⟩ := ih (k + 1) hm
      exact ⟨y, List.mem_cons_of_mem _ hy, hey⟩

/-! ### Helper lemmas: the shape of the output standings -/

theorem buildRows_map_name (ts : List Team) (old : Option (List Row)) (st : Stats) :
    (buildRows ts old st).map Row.name = ts.map Team.name := by
  unfold buildRows
  rw [List.map_map]
  rfl

theorem newStandings_map_name_perm (ts : List Team) (ws : List (String × Week))
    (old : Option (List Row)) :
    ((newStandings ts ws old).map Row.name).Perm (ts.map Team.name) := by
  unfold newStandings assignPlaces
  rw [assignPlacesFrom_map_name, ← buildRows_map_name ts old (statsFor ts ws old)]
  exact (sortRows_perm _).map Row.name

theorem newStandings_length (ts : List Team) (ws : List (String × Week))
    (old : Option (List Row)) : (newStandings ts ws old).length = ts.length := by
  have h := (newStandings_map_name_perm ts ws old).length_eq
  simpa using h

theorem newStandings_map_place (ts : List Team) (ws : List (String × Week))
    (old : Option (List Row)) :
    (newStandings ts ws old).map Row.place = List.range' 1 ts.length := by
  unfold newStandings assignPlaces
  rw [assignPlacesFrom_map_place]
  congr 1
  rw [(sortRows_perm (buildRows ts old (statsFor ts ws old))).length_eq]
  unfold buildRows
  rw [List.length_map]

/-- Reduction of `recalculateStandings` on a season that passes all three
guards. -/
theorem recalcSeason_eq {s : Season} {ts : List Team} {ws : List (String × Week)}
    (hts : s.teams = some ts) (hof : s.oldFormat = false) (hws : s.weeks = some ws) :
    recalcSeason s = { s with standings := some (newStandings ts ws s.standings) } := by
  unfold recalcSeason
  rw [hts]
  simp only [hof, hws, Bool.false_eq_true, if_false]

/-! ### Helper lemmas: frame conditions of the recompute -/

theorem recalcSeason_teams (s : Season) : (recalcSeason s).teams = s.teams := by
  unfold recalcSeason
  rcases hts : s.teams with _ | ts
  · exact hts
  · by_cases hof : s.oldFormat
    · simp [hof, hts]
    · rcases hws : s.weeks with _ | ws <;> simp [hof, hws, hts]

theorem recalcSeason_weeks (s : Season) : (recalcSeason s).weeks = s.weeks := by
  unfold recalcSeason
  rcases hts : s.teams with _ | ts
  · rfl
  · by_cases hof : s.oldFormat
    · simp [hof]
    · rcases hws : s.weeks with _ | ws <;> simp [hof, hws]

theorem recalcSeason_oldFormat (s : Season) : (recalcSeason s).oldFormat = s.oldFormat := by
  unfold recalcSeason
  rcases hts : s.teams with _ | ts
  · rfl
  · by_cases hof : s.oldFormat
    · simp [hof]
    · rcases hws : s.weeks with _ | ws <;> simp [hof, hws]

theorem recalcSeason_skip (s : Season)
    (h : s.oldFormat = true ∨ s.weeks = none ∨ s.teams = none) : recalcSeason s = s := by
  unfold recalcSeason
  rcases hts : s.teams with _ | ts
  · rfl
  · rcases h with h | h | h
    · simp [h]
    · by_cases hof : s.oldFormat <;> simp [h, hof]
    · rw [hts] at h
      cases h

theorem getSeason_recalcYear (data : List (String × Season)) (year y : String) :
    getSeason (recalcYear data year) y =
      if y = year then (getSeason data y).map recalcSeason else getSeason data y := by
  induction data with
  | nil => unfold recalcYear getSeason; by_cases h : y = year <;> simp [h]
  | cons p rest ih =>
    unfold recalcYear getSeason
    unfold recalcYear getSeason at ih
    rw [List.map_cons]
    by_cases hy : p.1 = y
    · have hkey : ((if p.1 = year then (p.1, recalcSeason p.2) else p).1 = y) := by
        split <;> exact hy
      rw [List.find?_cons_of_pos _ (by simpa using hkey),
        List.find?_cons_of_pos _ (by simpa using hy)]
      by_cases hp : p.1 = year
      · have h1 : y = year := by rw [← hy, hp]
        simp [hp, h1]
      · have h1 : ¬ (y = year) := by rw [← hy]; exact hp
        simp [hp, h1]
    · have hkey : ¬ ((if p.1 = year then (p.1, recalcSeason p.2) else p).1 = y) := by
        split <;> exact hy
      rw [List.find?_cons_of_neg _ (by simpa using hkey),
        List.find?_cons_of_neg _ (by simpa using hy)]
      exact ih

/-! ## Claim C4 — rank density -/

/-- C4: for every season with a non-empty roster that passes the engine's
guards, after `recalculateStandings` the standings hold exactly one row per
roster entry, the row names are a permutation of the roster names, and the
`place` values read top to bottom are exactly `1, …, N`. -/
theorem C4_rank_density (s : Season) (ts : List Team) (ws : List (String × Week))
    (hts : s.teams = some ts) (hof : s.oldFormat = false) (hws : s.weeks = some ws)
    (hne : ts ≠ []) :
    ∃ out, (recalcSeason s).standings = some out ∧
      out.map Row.place = List.range' 1 ts.length ∧
      out.length = ts.length ∧
      (out.map Row.name).Perm (ts.map Team.name) := by
  refine ⟨newStandings ts ws s.standings, ?_, newStandings_map_place ts ws s.standings,
    newStandings_length ts ws s.standings, newStandings_map_name_perm ts ws s.standings⟩
  rw [recalcSeason_eq hts hof hws]

/-- Witness for C4 at a concrete two-team season. -/
theorem C4_witness :
    ∃ out, (recalcSeason exSeasonC2).standings = some out ∧
      out.map Row.place = List.range' 1 [teamA, teamB].length ∧
      out.length = [teamA, teamB].length ∧
      (out.map Row.name).Perm ([teamA, teamB].map Team.name) :=
  C4_rank_density exSeasonC2 [teamA, teamB] _ rfl rfl rfl (by decide)

/-! ## Claim C9 — non-array matchups rejected -/

/-- C9: a week-edit request for an existing season whose `matchups` payload
is not an array is answered with the validation error and leaves the data
entirely unchanged, whether or not the storage write would succeed. -/
theorem C9_invalid_rejected (data : List (String × Season)) (year weekNum : String)
    (s : Season) (saveOk : Bool) (h : getSeason data year = some s) :
    putWeek data year weekNum none saveOk = (PutResponse.invalid, data) := by
  unfold putWeek
  rw [h]

/-- Witness for C9 at a concrete request. -/
theorem C9_witness :
    putWeek exData "2024" "1" none true = (PutResponse.invalid, exData) :=
  C9_invalid_rejected exData "2024" "1" _ true rfl

/-! ## Claim C10 — recompute mutates only the standings -/

/-- C10: `recalculateStandings(year)` leaves every other year untouched,
replaces at most the `standings` of the selected season (its `teams`,
`weeks`, and format flag are unchanged), and leaves an old-format season or
one without a weeks object entirely unchanged. -/
theorem C10_frame (data : List (String × Season)) (year : String) :
    (∀ y, y ≠ year → getSeason (recalcYear data year) y = getSeason data y) ∧
    (∀ s, getSeason data year = some s →
      getSeason (recalcYear data year) year = some (recalcSeason s)) ∧
    ∀ s : Season, (recalcSeason s).teams = s.teams ∧ (recalcSeason s).weeks = s.weeks ∧
      (recalcSeason s).oldFormat = s.oldFormat ∧
      (s.oldFormat = true ∨ s.weeks = none → recalcSeason s = s) := by
  refine ⟨fun y hy => ?_, fun s hs => ?_, fun s => ⟨recalcSeason_teams s, recalcSeason_weeks s,
    recalcSeason_oldFormat s, fun h => recalcSeason_skip s (by tauto)⟩⟩
  · rw [getSeason_recalcYear, if_neg hy]
  · rw [getSeason_recalcYear, if_pos rfl, hs]
    rfl

/-- Witness for C10 at a concrete data map. -/
theorem C10_witness :
    getSeason (recalcYear exData "2024") "2023" = getSeason exData "2023" ∧
    (recalcSeason { teams := none, weeks := none, standings := none, oldFormat := true } =
      { teams := none, weeks := none, standings := none, oldFormat := true }) :=
  ⟨(C10_frame exData "2024").1 "2023" (by decide),
    ((C10_frame exData "2024").2.2 _).2.2.2 (Or.inl rfl)⟩

/-! ## Claim C8 — write failure still leaves the edit visible -/

/-- Counterexample to C8: on a failing storage write the handler reports the
failure, but the in-memory data is mutated all the same — the new week is
visible afterwards, contradicting "neither the updated week nor the new
standings become visible". -/
theorem C8_counterexample :
    (putWeek exData "2024" "2" (some [mkMatch "A" "B" (some 3) (some 1)]) false).1 =
        PutResponse.saveFailed ∧
      (putWeek exData "2024" "2" (some [mkMatch "A" "B" (some 3) (some 1)]) false).2 ≠ exData ∧
      ((getSeason ((putWeek exData "2024" "2"
            (some [mkMatch "A" "B" (some 3) (some 1)]) false).2) "2024").bind
          Season.weeks).getD [] =
        [("1", Week.mk [mkMatch "A" "B" (some 10) (some 5)]),
          ("2", Week.mk [mkMatch "A" "B" (some 3) (some 1)])] := by
  refine ⟨rfl, by with_unfolding_all decide, rfl⟩

/-- C8 as amended: when the storage write fails the caller is told so, but
the edit is *not* atomic — the in-memory data after the failed request is
exactly the data after a successful one (updated week and recomputed
standings included); only the durable write is missing. -/
theorem C8_amended (data : List (String × Season)) (year weekNum : String)
    (ms : List Matchup) (s : Season) (h : getSeason data year = some s) :
    (putWeek data year weekNum (some ms) false).1 = PutResponse.saveFailed ∧
    (putWeek data year weekNum (some ms) false).2 =
      (putWeek data year weekNum (some ms) true).2 := by
  unfold putWeek
  rw [h]
  exact ⟨rfl, rfl⟩

/-- Witness for C8's amended statement at a concrete request. -/
theorem C8_witness :
    (putWeek exData "2024" "2" (some [mkMatch "A" "B" (some 3) (some 1)]) false).1 =
        PutResponse.saveFailed ∧
      (putWeek exData "2024" "2" (some [mkMatch "A" "B" (some 3) (some 1)]) false).2 =
        (putWeek exData "2024" "2" (some [mkMatch "A" "B" (some 3) (some 1)]) true).2 :=
  C8_amended exData "2024" "2" [mkMatch "A" "B" (some 3) (some 1)] _ rfl

/-! ## Claim C3 — previousRank -/

/-- Every output row's `prevPlace` is copied verbatim from the first prior
standings row with the same name (and is absent when there is none). -/
theorem newStandings_prevPlace (ts : List Team) (ws : List (String × Week))
    (old : Option (List Row)) :
    ∀ r ∈ newStandings ts ws old,
      r.prevPlace = (((old.getD []).find? fun q => q.name = r.name).bind Row.prevPlace) := by
  intro r hr
  unfold newStandings assignPlaces at hr
  obtain ⟨x, hx, hrx⟩ := mem_assignPlacesFrom hr
  have hx2 : x ∈ buildRows ts old (statsFor ts ws old) := (sortRows_perm _).subset hx
  obtain ⟨t, ht, hxt⟩ := List.mem_map.mp hx2
  have hxname : t.name = x.name := congrArg Row.name hxt
  have hrname : r.name = x.name := by rw [hrx]
  have hrprev : r.prevPlace = x.prevPlace := by rw [hrx]
  have hxprev : x.prevPlace =
      (((old.getD []).find? fun q => q.name = t.name).bind Row.prevPlace) := by
    rw [← hxt]
    rfl
  rw [hrprev, hxprev, hrname, ← hxname]

/-- C3 as amended: `recalculateStandings` computes no checkpoint; for every
season that passes the guards, each output row's `prevPlace` equals the
`prevPlace` of the first existing standings row with the same name — absent
when no such row exists — regardless of how many regular scored weeks the
season has. -/
theorem C3_prevPlace_carryover (s : Season) (ts : List Team) (ws : List (String × Week))
    (hts : s.teams = some ts) (hof : s.oldFormat = false) (hws : s.weeks = some ws) :
    ∃ out, (recalcSeason s).standings = some out ∧
      ∀ r ∈ out, r.prevPlace =
        (((s.standings.getD []).find? fun q => q.name = r.name).bind Row.prevPlace) := by
  refine ⟨newStandings ts ws s.standings, ?_, newStandings_prevPlace ts ws s.standings⟩
  rw [recalcSeason_eq hts hof hws]

/-- Witness for C3's amended statement at a concrete season. -/
theorem C3_witness :
    ∃ out, (recalcSeason exSeasonC3).standings = some out ∧
      ∀ r ∈ out, r.prevPlace =
        (((exSeasonC3.standings.getD []).find? fun q => q.name = r.name).bind Row.prevPlace) :=
  C3_prevPlace_carryover exSeasonC3 [teamA, teamB] _ rfl rfl rfl

/-- Counterexample to C3 as stated: `exSeasonC3` has two regular-phase scored
weeks; the spec's checkpoint (the aggregate through week 1) ranks A first and
B second, yet the recompute leaves A's `previousRank` at the carried-over 7
and B's absent. -/
theorem C3_counterexample :
    ((recalcSeason exSeasonC3).standings.getD []).map (fun r => (r.name, r.prevPlace)) =
        [("A", some 7), ("B", none)] ∧
      specCheckpointRanks [teamA, teamB] (exSeasonC3.weeks.getD []) = [("A", 1), ("B", 2)] ∧
      (some 7 : Option Nat) ≠ some 1 := by
  exact ⟨by with_unfolding_all decide, by with_unfolding_all decide, by with_unfolding_all decide⟩

/-! ## Claim C6 — zero scored weeks -/

theorem updateStat_congr_id (st : Stats) (n : String) (f : StatLine → StatLine)
    (hf : ∀ l, f l = l) : updateStat st n f = st := by
  funext m
  unfold updateStat
  split
  · rcases st m with _ | l
    · rfl
    · exact congrArg some (hf l)
  · rfl

theorem processMatchup_zero (acc : Stats × Nat) (m : Matchup)
    (h1 : effScore m.team1Score = 0) (h2 : effScore m.team2Score = 0) :
    processMatchup acc m = acc := by
  unfold processMatchup
  rcases hm1 : acc.1 m.team1 with _ | l1 <;> rcases hm2 : acc.1 m.team2 with _ | l2 <;>
    simp only []
  rw [h1, h2]
  have hz : ¬ ((0 : ℚ) < 0 ∧ (0 : ℚ) < 0) := by simp
  rw [if_neg hz]
  rw [updateStat_congr_id _ _ _ (by intro l; cases l; simp),
    updateStat_congr_id _ _ _ (by intro l; cases l; simp)]

theorem foldl_processMatchup_zero (ms : List Matchup) :
    (∀ m ∈ ms, effScore m.team1Score = 0 ∧ effScore m.team2Score = 0) →
    ∀ acc : Stats × Nat, ms.foldl processMatchup acc = acc := by
  induction ms with
  | nil => intro _ acc; rfl
  | cons m rest ih =>
    intro hz acc
    rw [List.foldl_cons, processMatchup_zero acc m (hz m (List.mem_cons_self m rest)).1
      (hz m (List.mem_cons_self m rest)).2]
    exact ih (fun x hx => hz x (List.mem_cons_of_mem _ hx)) acc

theorem foldl_weeks_zero (ws : List (String × Week)) :
    (∀ w ∈ ws, ∀ m ∈ (w : String × Week).2.matchups,
      effScore m.team1Score = 0 ∧ effScore m.team2Score = 0) →
    ∀ acc : Stats × Nat,
      ws.foldl (fun acc w => w.2.matchups.foldl processMatchup acc) acc = acc := by
  induction ws with
  | nil => intro _ acc; rfl
  | cons w rest ih =>
    intro hz acc
    rw [List.foldl_cons, foldl_processMatchup_zero w.2.matchups
      (hz w (List.mem_cons_self w rest)) acc]
    exact ih (fun x hx => hz x (List.mem_cons_of_mem _ hx)) acc

theorem processWeeks_zero (st : Stats) (ws : List (String × Week))
    (hz : ∀ w ∈ ws, ∀ m ∈ (w : String × Week).2.matchups,
      effScore m.team1Score = 0 ∧ effScore m.team2Score = 0) :
    processWeeks st ws = (st, 0) := by
  unfold processWeeks
  exact foldl_weeks_zero ws hz (st, 0)

/-- With all keys equal the stable sort does not move anything. -/
theorem sortRows_all_zero (l : List Row) (h : ∀ x ∈ l, x.wins = 0 ∧ x.pf = 0) :
    sortRows l = l := by
  induction l with
  | nil => rfl
  | cons x xs ih =>
    show List.orderedInsert rowLE x (sortRows xs) = x :: xs
    rw [ih fun y hy => h y (List.mem_cons_of_mem _ hy)]
    cases xs with
    | nil => rfl
    | cons y ys =>
      have hle : rowLE x y := by
        rw [rowLE_iff, (h x (by simp)).1, (h x (by simp)).2,
          (h y (by simp)).1, (h y (by simp)).2]
        exact Or.inr ⟨rfl, le_refl 0⟩
      exact List.orderedInsert_of_le rowLE _ hle

/-- C6 as amended: when no matchup of the season carries any usable score
*and* the prior standings are absent or empty (so the end-of-season fallback
has nothing to copy), every output row is all-zero and the places follow the
original roster order. -/
theorem C6_zero_season (s : Season) (ts : List Team) (ws : List (String × Week))
    (hts : s.teams = some ts) (hof : s.oldFormat = false) (hws : s.weeks = some ws)
    (hz : ∀ w ∈ ws, ∀ m ∈ (w : String × Week).2.matchups,
      effScore m.team1Score = 0 ∧ effScore m.team2Score = 0)
    (hstand : s.standings = none ∨ s.standings = some []) :
    ∃ out, (recalcSeason s).standings = some out ∧
      out.map Row.name = ts.map Team.name ∧
      out.map Row.place = List.range' 1 ts.length ∧
      ∀ r ∈ out, r.wins = 0 ∧ r.losses = 0 ∧ r.ties = 0 ∧ r.pf = 0 ∧ r.pa = 0 := by
  refine ⟨newStandings ts ws s.standings, by rw [recalcSeason_eq hts hof hws], ?_, ?_, ?_⟩
  all_goals
    have hstats : statsFor ts ws s.standings = initStats ts := by
      unfold statsFor
      rw [processWeeks_zero _ ws hz]
      rcases hstand with h | h <;> rw [h] <;> rfl
    have hfind : ∀ t : Team,
        ((s.standings.getD []).find? fun r => r.name = t.name) = none := by
      intro t
      rcases hstand with h | h <;> rw [h] <;> rfl
    have hrows : buildRows ts s.standings (statsFor ts ws s.standings) =
        ts.map fun t => mkRow t none zeroLine := by
      unfold buildRows
      refine List.map_congr_left fun t ht => ?_
      rw [hstats, hfind t]
      congr 1
      unfold initStats
      split <;> rfl
    have hzero : ∀ x ∈ ts.map fun t => mkRow t none zeroLine,
        x.wins = 0 ∧ x.pf = 0 := by
      intro x hx
      obtain ⟨t, ht, hxt⟩ := List.mem_map.mp hx
      rw [← hxt]
      exact ⟨rfl, rfl⟩
    have hsorted : sortRows (buildRows ts s.standings (statsFor ts ws s.standings)) =
        ts.map fun t => mkRow t none zeroLine := by
      rw [hrows]
      exact sortRows_all_zero _ hzero
  · unfold newStandings assignPlaces
    rw [hsorted, assignPlacesFrom_map_name, List.map_map]
    rfl
  · unfold newStandings assignPlaces
    rw [hsorted, assignPlacesFrom_map_place, List.length_map]
  · intro r hr
    unfold newStandings assignPlaces at hr
    rw [hsorted] at hr
    obtain ⟨x, hx, hrx⟩ := mem_assignPlacesFrom hr
    obtain ⟨t, ht, hxt⟩ := List.mem_map.mp hx
    rw [hrx, ← hxt]
    exact ⟨rfl, rfl, rfl, rfl, rfl⟩

/-- Witness for C6's amended statement: a season whose only matchup has no
scores at all. -/
theorem C6_witness :
    ∃ out,
      (recalcSeason
          { teams := some [teamA, teamB]
            weeks := some [("1", Week.mk [mkMatch "A" "B" none none])]
            standings := none, oldFormat := false }).standings = some out ∧
      out.map Row.name = [teamA, teamB].map Team.name ∧
      out.map Row.place = List.range' 1 [teamA, teamB].length ∧
      ∀ r ∈ out, r.wins = 0 ∧ r.losses = 0 ∧ r.ties = 0 ∧ r.pf = 0 ∧ r.pa = 0 :=
  C6_zero_season _ [teamA, teamB] _ rfl rfl rfl (by decide) (Or.inl rfl)

/-- Counterexample to C6 as stated: `exSeasonC6` has zero scored weeks (its
only week has no matchups), yet after the recompute team A's row shows the
non-zero stats copied back from the prior standings by the fallback. -/
theorem C6_counterexample :
    ((exSeasonC6.weeks.getD []).map fun w => w.2.matchups.any specPlayed) = [false] ∧
      ((recalcSeason exSeasonC6).standings.getD []).map (fun r => (r.name, r.wins, r.pf)) =
        [("A", 3, (100 : ℚ)), ("B", 0, 0)] ∧
      (3 : Nat) ≠ 0 := by
  exact ⟨by with_unfolding_all decide, by with_unfolding_all decide, by with_unfolding_all decide⟩

/-! ## Claim C2 — per-matchup scoring -/

/-- C2 as amended: a matchup between two distinct roster teams is compared
only when both *effective* scores (`parseFloat(x) || 0`) are strictly
positive; then the higher score takes a win and inflicts a loss, and equal
scores give one tie to each side, with the game counted.  (A present score of
`0` — e.g. a 0–0 matchup — fails the positivity test and is not tallied.) -/
theorem C2_positive_scores_compared (st : Stats) (g : Nat) (m : Matchup)
    (hne : m.team1 ≠ m.team2)
    (h1 : (st m.team1).isSome = true) (h2 : (st m.team2).isSome = true)
    (hp1 : 0 < effScore m.team1Score) (hp2 : 0 < effScore m.team2Score) :
    (processMatchup (st, g) m).2 = g + 1 ∧
    (effScore m.team2Score < effScore m.team1Score →
      winsOf (processMatchup (st, g) m).1 m.team1 = winsOf st m.team1 + 1 ∧
      lossesOf (processMatchup (st, g) m).1 m.team2 = lossesOf st m.team2 + 1 ∧
      tiesOf (processMatchup (st, g) m).1 m.team1 = tiesOf st m.team1 ∧
      tiesOf (processMatchup (st, g) m).1 m.team2 = tiesOf st m.team2) ∧
    (effScore m.team1Score < effScore m.team2Score →
      winsOf (processMatchup (st, g) m).1 m.team2 = winsOf st m.team2 + 1 ∧
      lossesOf (processMatchup (st, g) m).1 m.team1 = lossesOf st m.team1 + 1 ∧
      tiesOf (processMatchup (st, g) m).1 m.team1 = tiesOf st m.team1 ∧
      tiesOf (processMatchup (st, g) m).1 m.team2 = tiesOf st m.team2) ∧
    (effScore m.team1Score = effScore m.team2Score →
      tiesOf (processMatchup (st, g) m).1 m.team1 = tiesOf st m.team1 + 1 ∧
      tiesOf (processMatchup (st, g) m).1 m.team2 = tiesOf st m.team2 + 1 ∧
      winsOf (processMatchup (st, g) m).1 m.team1 = winsOf st m.team1 ∧
      winsOf (processMatchup (st, g) m).1 m.team2 = winsOf st m.team2 ∧
      lossesOf (processMatchup (st, g) m).1 m.team1 = lossesOf st m.team1 ∧
      lossesOf (processMatchup (st, g) m).1 m.team2 = lossesOf st m.team2) := by
  obtain ⟨l1, h1e⟩ := Option.isSome_iff_exists.mp h1
  obtain ⟨l2, h2e⟩ := Option.isSome_iff_exists.mp h2
  have hne2 : m.team2 ≠ m.team1 := Ne.symm hne
  unfold processMatchup
  simp only [h1e, h2e]
  rw [if_pos ⟨hp1, hp2⟩]
  rcases lt_trichotomy (effScore m.team1Score) (effScore m.team2Score) with hlt | heq | hgt
  · rw [if_neg (not_lt_of_lt hlt), if_pos hlt]
    refine ⟨rfl, fun hc => absurd hc (not_lt_of_lt hlt), fun _ => ?_, fun hc => ?_⟩
    · constructor
      · simp [winsOf, updateStat, hne2, h2e]
      · refine ⟨?_, ?_, ?_⟩ <;> simp [lossesOf, tiesOf, updateStat, hne, hne2, h1e, h2e]
    · exact absurd hc (ne_of_lt hlt)
  · rw [heq, if_neg (lt_irrefl _), if_neg (lt_irrefl _)]
    refine ⟨rfl, fun hc => absurd hc (lt_irrefl _), fun hc => absurd hc (lt_irrefl _),
      fun _ => ?_⟩
    refine ⟨?_, ?_, ?_, ?_, ?_, ?_⟩ <;>
      simp [winsOf, lossesOf, tiesOf, updateStat, hne, hne2, h1e, h2e]
  · rw [if_pos hgt]
    refine ⟨rfl, fun _ => ?_, fun hc => absurd hc (not_lt_of_lt hgt), fun hc => ?_⟩
    · refine ⟨?_, ?_, ?_, ?_⟩ <;>
        simp [winsOf, lossesOf, tiesOf, updateStat, hne, hne2, h1e, h2e]
    · exact absurd hc.symm (ne_of_lt hgt)

/-- Witness for C2's amended statement at a concrete 10–5 matchup. -/
theorem C2_witness :
    (processMatchup (initStats [teamA, teamB], 0) (mkMatch "A" "B" (some 10) (some 5))).2 =
        0 + 1 ∧
      (effScore (mkMatch "A" "B" (some 10) (some 5)).team2Score <
          effScore (mkMatch "A" "B" (some 10) (some 5)).team1Score →
        winsOf (processMatchup (initStats [teamA, teamB], 0)
            (mkMatch "A" "B" (some 10) (some 5))).1 "A" =
          winsOf (initStats [teamA, teamB]) "A" + 1 ∧
        lossesOf (processMatchup (initStats [teamA, teamB], 0)
            (mkMatch "A" "B" (some 10) (some 5))).1 "B" =
          lossesOf (initStats [teamA, teamB]) "B" + 1 ∧
        tiesOf (processMatchup (initStats [teamA, teamB], 0)
            (mkMatch "A" "B" (some 10) (some 5))).1 "A" =
          tiesOf (initStats [teamA, teamB]) "A" ∧
        tiesOf (processMatchup (initStats [teamA, teamB], 0)
            (mkMatch "A" "B" (some 10) (some 5))).1 "B" =
          tiesOf (initStats [teamA, teamB]) "B") ∧
      (effScore (mkMatch "A" "B" (some 10) (some 5)).team1Score <
          effScore (mkMatch "A" "B" (some 10) (some 5)).team2Score →
        winsOf (processMatchup (initStats [teamA, teamB], 0)
            (mkMatch "A" "B" (some 10) (some 5))).1 "B" =
          winsOf (initStats [teamA, teamB]) "B" + 1 ∧
        lossesOf (processMatchup (initStats [teamA, teamB], 0)
            (mkMatch "A" "B" (some 10) (some 5))).1 "A" =
          lossesOf (initStats [teamA, teamB]) "A" + 1 ∧
        tiesOf (processMatchup (initStats [teamA, teamB], 0)
            (mkMatch "A" "B" (some 10) (some 5))).1 "A" =
          tiesOf (initStats [teamA, teamB]) "A" ∧
        tiesOf (processMatchup (initStats [teamA, teamB], 0)
            (mkMatch "A" "B" (some 10) (some 5))).1 "B" =
          tiesOf (initStats [teamA, teamB]) "B") ∧
      (effScore (mkMatch "A" "B" (some 10) (some 5)).team1Score =
          effScore (mkMatch "A" "B" (some 10) (some 5)).team2Score →
        tiesOf (processMatchup (initStats [teamA, teamB], 0)
            (mkMatch "A" "B" (some 10) (some 5))).1 "A" =
          tiesOf (initStats [teamA, teamB]) "A" + 1 ∧
        tiesOf (processMatchup (initStats [teamA, teamB], 0)
            (mkMatch "A" "B" (some 10) (some 5))).1 "B" =
          tiesOf (initStats [teamA, teamB]) "B" + 1 ∧
        winsOf (processMatchup (initStats [teamA, teamB], 0)
            (mkMatch "A" "B" (some 10) (some 5))).1 "A" =
          winsOf (initStats [teamA, teamB]) "A" ∧
        winsOf (processMatchup (initStats [teamA, teamB], 0)
            (mkMatch "A" "B" (some 10) (some 5))).1 "B" =
          winsOf (initStats [teamA, teamB]) "B" ∧
        lossesOf (processMatchup (initStats [teamA, teamB], 0)
            (mkMatch "A" "B" (some 10) (some 5))).1 "A" =
          lossesOf (initStats [teamA, teamB]) "A" ∧
        lossesOf (processMatchup (initStats [teamA, teamB], 0)
            (mkMatch "A" "B" (some 10) (some 5))).1 "B" =
          lossesOf (initStats [teamA, teamB]) "B") :=
  C2_positive_scores_compared (initStats [teamA, teamB]) 0 (mkMatch "A" "B" (some 10) (some 5))
    (by decide) (by decide) (by decide)
    (by with_unfolding_all decide) (by with_unfolding_all decide)

/-- Counterexample to C2 as stated: the only matchup of `exSeasonC2` has both
scores present (a 0–0 game, which the claim says counts as one tie for each
team), yet both rows come out with zero ties. -/
theorem C2_counterexample :
    ((exSeasonC2.weeks.getD []).map fun w => w.2.matchups.map specPlayed) = [[true]] ∧
      ((recalcSeason exSeasonC2).standings.getD []).map (fun r => (r.name, r.ties)) =
        [("A", 0), ("B", 0)] ∧
      (0 : Nat) ≠ 1 := by
  exact ⟨by with_unfolding_all decide, by with_unfolding_all decide, by decide⟩

/-! ## Claim C5 — the final ordering -/

theorem assignPlacesFrom_pairwise (k : Nat) (l : List Row) (h : l.Pairwise rowLE) :
    (assignPlacesFrom k l).Pairwise rowLE := by
  induction l generalizing k with
  | nil => exact List.Pairwise.nil
  | cons x xs ih =>
    rcases List.pairwise_cons.mp h with ⟨hx, hxs⟩
    refine List.pairwise_cons.mpr ⟨?_, ih (k + 1) hxs⟩
    intro y hy
    obtain ⟨y0, hy0, hyy⟩ := mem_assignPlacesFrom hy
    have hxy : rowLE x y0 := hx y0 hy0
    rw [hyy]
    exact hxy

/-- C5 as amended: the output order is fully determined by the engine's
actual key — *total* wins (all weeks, playoff weeks included) descending,
then *total* points-for descending — with ties broken by the stable original
roster order: the output rows are a permutation of the roster-ordered rows,
they are sorted by the comparator's order `rowLE`, and for every key the
key-tied rows appear exactly in roster order. -/
theorem C5_deterministic_order (s : Season) (ts : List Team) (ws : List (String × Week))
    (hts : s.teams = some ts) (hof : s.oldFormat = false) (hws : s.weeks = some ws) :
    ∃ out, (recalcSeason s).standings = some out ∧
      (out.map stripPlace).Perm
        ((buildRows ts s.standings (statsFor ts ws s.standings)).map stripPlace) ∧
      out.Pairwise rowLE ∧
      ∀ K : Nat × ℚ,
        (out.map stripPlace).filter (fun r => decide (rowKey r = K)) =
          ((buildRows ts s.standings (statsFor ts ws s.standings)).map stripPlace).filter
            fun r => decide (rowKey r = K) := by
  refine ⟨newStandings ts ws s.standings, by rw [recalcSeason_eq hts hof hws], ?_, ?_, ?_⟩
  · unfold newStandings assignPlaces
    rw [assignPlacesFrom_map_strip]
    exact (sortRows_perm _).map stripPlace
  · unfold newStandings assignPlaces
    exact assignPlacesFrom_pairwise 1 _ (sortRows_sorted _)
  · intro K
    unfold newStandings assignPlaces
    rw [assignPlacesFrom_map_strip]
    have h1 : ((sortRows (buildRows ts s.standings (statsFor ts ws s.standings))).map
        stripPlace).filter (fun r => decide (rowKey r = K)) =
        ((sortRows (buildRows ts s.standings (statsFor ts ws s.standings))).filter
          fun r => decide (rowKey r = K)).map stripPlace := by
      rw [List.filter_map]
      rfl
    have h2 : ((buildRows ts s.standings (statsFor ts ws s.standings)).map
        stripPlace).filter (fun r => decide (rowKey r = K)) =
        ((buildRows ts s.standings (statsFor ts ws s.standings)).filter
          fun r => decide (rowKey r = K)).map stripPlace := by
      rw [List.filter_map]
      rfl
    rw [h1, h2, filter_sortRows]

/-- Witness for C5's amended statement at a concrete season. -/
theorem C5_witness :
    ∃ out, (recalcSeason exSeasonC5).standings = some out ∧
      (out.map stripPlace).Perm
        ((buildRows [teamA, teamB] exSeasonC5.standings
          (statsFor [teamA, teamB] (exSeasonC5.weeks.getD []) exSeasonC5.standings)).map
            stripPlace) ∧
      out.Pairwise rowLE ∧
      ∀ K : Nat × ℚ,
        (out.map stripPlace).filter (fun r => decide (rowKey r = K)) =
          ((buildRows [teamA, teamB] exSeasonC5.standings
            (statsFor [teamA, teamB] (exSeasonC5.weeks.getD []) exSeasonC5.standings)).map
              stripPlace).filter fun r => decide (rowKey r = K) :=
  C5_deterministic_order exSeasonC5 [teamA, teamB] _ rfl rfl rfl

/-- Counterexample to C5 as stated: in `exSeasonC5` team A wins the only
regular-phase game (one regular-season win to B's zero), but the engine sorts
by total wins including the playoff weeks, so B is ranked first. -/
theorem C5_counterexample :
    ((recalcSeason exSeasonC5).standings.getD []).map Row.name = ["B", "A"] ∧
      specRegularWins (exSeasonC5.weeks.getD []) "B" = 0 ∧
      specRegularWins (exSeasonC5.weeks.getD []) "A" = 1 ∧
      (0 : Nat) < 1 := by
  exact ⟨by with_unfolding_all decide, by with_unfolding_all decide,
    by with_unfolding_all decide, by decide⟩

/-! ## Claim C1 — conservation of wins + losses + ties -/

theorem wltOf_updateStat_other (st : Stats) (k : String) (f : StatLine → StatLine)
    (n : String) (h : n ≠ k) : wltOf (updateStat st k f) n = wltOf st n := by
  simp [wltOf, updateStat, h]

theorem wltOf_updateStat_self (st : Stats) (k : String) (f : StatLine → StatLine)
    (l : StatLine) (hl : st k = some l) :
    wltOf (updateStat st k f) k = (f l).wins + (f l).losses + (f l).ties := by
  simp [wltOf, updateStat, hl]

theorem wltOf_eq_of_some (st : Stats) (n : String) (l : StatLine) (hl : st n = some l) :
    wltOf st n = l.wins + l.losses + l.ties := by
  simp [wltOf, hl]

/-- One matchup changes a name's `wins+losses+ties` by exactly one when the
matchup is tallied and the name plays in it, and by nothing otherwise. -/
theorem processMatchup_wlt (acc : Stats × Nat) (m : Matchup) (hne : m.team1 ≠ m.team2)
    (n : String) :
    wltOf (processMatchup acc m).1 n =
      wltOf acc.1 n +
        (if (acc.1 m.team1).isSome ∧ (acc.1 m.team2).isSome ∧
            0 < effScore m.team1Score ∧ 0 < effScore m.team2Score ∧
            (m.team1 = n ∨ m.team2 = n) then 1 else 0) := by
  have hne2 : m.team2 ≠ m.team1 := Ne.symm hne
  rcases h1 : acc.1 m.team1 with _ | l1 <;> rcases h2 : acc.1 m.team2 with _ | l2 <;>
    unfold processMatchup <;> simp only [h1, h2]
  · simp
  · simp
  · simp
  · by_cases hp : 0 < effScore m.team1Score ∧ 0 < effScore m.team2Score
    · rw [if_pos hp]
      rcases lt_trichotomy (effScore m.team2Score) (effScore m.team1Score) with hlt | heq | hgt
      · rw [if_pos hlt]
        by_cases hn1 : n = m.team1
        · have hn2 : n ≠ m.team2 := by rw [hn1]; exact hne
          simp [wltOf, updateStat, hn1, hne, hne2, h1, h2, hp.1, hp.2] <;> omega
        · by_cases hn2 : n = m.team2
          · have hm1 : ¬ (m.team1 = n) := fun hc => hn1 hc.symm
            simp [wltOf, updateStat, hn2, hne, hne2, hm1, h1, h2, hp.1, hp.2] <;> omega
          · have hm1 : ¬ (m.team1 = n) := fun hc => hn1 hc.symm
            have hm2 : ¬ (m.team2 = n) := fun hc => hn2 hc.symm
            simp [wltOf, updateStat, hn1, hn2, hm1, hm2, h1, h2]
      · rw [heq, if_neg (lt_irrefl _), if_neg (lt_irrefl _)]
        by_cases hn1 : n = m.team1
        · have hn2 : n ≠ m.team2 := by rw [hn1]; exact hne
          simp [wltOf, updateStat, hn1, hne, hne2, h1, h2, hp.1, heq ▸ hp.2] <;> omega
        · by_cases hn2 : n = m.team2
          · have hm1 : ¬ (m.team1 = n) := fun hc => hn1 hc.symm
            simp [wltOf, updateStat, hn2, hne, hne2, hm1, h1, h2, hp.1, heq ▸ hp.2] <;> omega
          · have hm1 : ¬ (m.team1 = n) := fun hc => hn1 hc.symm
            have hm2 : ¬ (m.team2 = n) := fun hc => hn2 hc.symm
            simp [wltOf, updateStat, hn1, hn2, hm1, hm2, h1, h2]
      · rw [if_neg (not_lt_of_lt hgt), if_pos hgt]
        by_cases hn1 : n = m.team1
        · have hn2 : n ≠ m.team2 := by rw [hn1]; exact hne
          simp [wltOf, updateStat, hn1, hne, hne2, h1, h2, hp.1, hp.2] <;> omega
        · by_cases hn2 : n = m.team2
          · have hm1 : ¬ (m.team1 = n) := fun hc => hn1 hc.symm
            simp [wltOf, updateStat, hn2, hne, hne2, hm1, h1, h2, hp.1, hp.2] <;> omega
          · have hm1 : ¬ (m.team1 = n) := fun hc => hn1 hc.symm
            have hm2 : ¬ (m.team2 = n) := fun hc => hn2 hc.symm
            simp [wltOf, updateStat, hn1, hn2, hm1, hm2, h1, h2]
    · rw [if_neg hp, if_neg]
      · by_cases hn1 : n = m.team1
        · have hn2 : n ≠ m.team2 := by rw [hn1]; exact hne
          simp [wltOf, updateStat, hn1, hne, hne2, h1, h2] <;> omega
        · by_cases hn2 : n = m.team2
          · simp [wltOf, updateStat, hn2, hne, hne2, h1, h2]
          · simp [wltOf, updateStat, hn1, hn2, h1, h2]
      · rintro ⟨_, _, hc1, hc2, _⟩
        exact hp ⟨hc1, hc2⟩

theorem wltOf_initStats (ts : List Team) (n : String) : wltOf (initStats ts) n = 0 := by
  unfold wltOf initStats
  split <;> rfl

theorem initStats_isSome_any (ts : List Team) (n : String) :
    (initStats ts n).isSome = (ts.any fun t => t.name = n) := by
  unfold initStats
  split
  · rename_i h
    rw [h]
    rfl
  · rename_i h
    cases hb : (ts.any fun t => t.name = n)
    · rfl
    · exact absurd hb h

/-- Folding a list of matchups adds, for every name, exactly the number of
tallied matchups of the list in which the name plays.  The Boolean `d` fixes
the (fold-invariant) domain of the stats map. -/
theorem foldl_processMatchup_wlt (ms : List Matchup) (d : String → Bool) :
    (∀ m ∈ ms, m.team1 ≠ m.team2) →
    ∀ acc : Stats × Nat, (∀ k, (acc.1 k).isSome = d k) → ∀ n,
      wltOf (ms.foldl processMatchup acc).1 n =
        wltOf acc.1 n + ms.countP fun m =>
          d m.team1 && d m.team2 && decide (0 < effScore m.team1Score) &&
            decide (0 < effScore m.team2Score) &&
            (decide (m.team1 = n) || decide (m.team2 = n)) := by
  induction ms with
  | nil => intro _ acc _ n; simp
  | cons m rest ih =>
    intro hne acc hd n
    rw [List.foldl_cons, List.countP_cons,
      ih (fun x hx => hne x (List.mem_cons_of_mem _ hx)) (processMatchup acc m)
        (fun k => by rw [processMatchup_isSome, hd]) n,
      processMatchup_wlt acc m (hne m (List.mem_cons_self m rest)) n]
    have hb : (d m.team1 && d m.team2 && decide (0 < effScore m.team1Score) &&
        decide (0 < effScore m.team2Score) &&
        (decide (m.team1 = n) || decide (m.team2 = n))) =
        decide ((acc.1 m.team1).isSome ∧ (acc.1 m.team2).isSome ∧
          0 < effScore m.team1Score ∧ 0 < effScore m.team2Score ∧
          (m.team1 = n ∨ m.team2 = n)) := by
      rw [← hd m.team1, ← hd m.team2]
      simp [Bool.and_assoc]
    rw [hb]
    by_cases hc : (acc.1 m.team1).isSome ∧ (acc.1 m.team2).isSome ∧
        0 < effScore m.team1Score ∧ 0 < effScore m.team2Score ∧
        (m.team1 = n ∨ m.team2 = n)
    · rw [if_pos hc, if_pos (by rw [decide_eq_true_eq]; exact hc)]
      omega
    · rw [if_neg hc, if_neg (by rw [decide_eq_true_eq]; exact hc)]
      omega

theorem processWeeks_wlt (ts : List Team) (ws : List (String × Week))
    (hne : ∀ w ∈ ws, ∀ m ∈ (w : String × Week).2.matchups, m.team1 ≠ m.team2)
    (n : String) :
    wltOf (processWeeks (initStats ts) ws).1 n = playedCountFor ts ws n := by
  have hfold : processWeeks (initStats ts) ws =
      ((ws.map fun w => w.2.matchups).flatten).foldl processMatchup (initStats ts, 0) := by
    unfold processWeeks
    rw [List.foldl_flatten, List.foldl_map]
  have hmem : ∀ m ∈ (ws.map fun w => w.2.matchups).flatten, m.team1 ≠ m.team2 := by
    intro m hm
    rw [List.mem_flatten] at hm
    obtain ⟨l, hl, hml⟩ := hm
    obtain ⟨w, hw, hwl⟩ := List.mem_map.mp hl
    exact hne w hw m (by rw [hwl]; exact hml)
  rw [hfold, foldl_processMatchup_wlt _ (fun k => ts.any fun t => t.name = k) hmem
    (initStats ts, 0) (fun k => initStats_isSome_any ts k) n, wltOf_initStats]
  unfold playedCountFor countedMatchup
  rw [Nat.zero_add]

theorem statsFor_wlt (ts : List Team) (ws : List (String × Week)) (old : Option (List Row))
    (hne : ∀ w ∈ ws, ∀ m ∈ (w : String × Week).2.matchups, m.team1 ≠ m.team2)
    (hfb : gamesOf ts ws ≠ 0 ∨ old = none ∨ old = some []) (n : String) :
    wltOf (statsFor ts ws old) n = playedCountFor ts ws n := by
  have heq : statsFor ts ws old = (processWeeks (initStats ts) ws).1 := by
    unfold statsFor
    by_cases hz : (processWeeks (initStats ts) ws).2 = 0
    · rw [if_pos hz]
      rcases hfb with h | h | h
      · exact absurd hz h
      · rw [h]
      · rw [h]
        rfl
    · rw [if_neg hz]
  rw [heq]
  exact processWeeks_wlt ts ws hne n

theorem statline_getD_wlt (st : Stats) (n : String) :
    ((st n).getD zeroLine).wins + ((st n).getD zeroLine).losses +
      ((st n).getD zeroLine).ties = wltOf st n := by
  unfold wltOf
  rcases st n with _ | l <;> rfl

/-- C1 as amended: for every season that passes the guards, in which no
matchup pairs a team against itself, and in which either at least one game
was tallied or the prior standings are absent/empty (so the end-of-season
fallback is inert), every output row's `wins + losses + ties` equals the
number of matchups — across *all* weeks, playoff weeks included — in which
the row's team appears against another roster team with both effective
scores strictly positive. -/
theorem C1_conservation (s : Season) (ts : List Team) (ws : List (String × Week))
    (hts : s.teams = some ts) (hof : s.oldFormat = false) (hws : s.weeks = some ws)
    (hself : ∀ w ∈ ws, ∀ m ∈ (w : String × Week).2.matchups, m.team1 ≠ m.team2)
    (hfb : gamesOf ts ws ≠ 0 ∨ s.standings = none ∨ s.standings = some []) :
    ∃ out, (recalcSeason s).standings = some out ∧
      ∀ r ∈ out, r.wins + r.losses + r.ties = playedCountFor ts ws r.name := by
  refine ⟨newStandings ts ws s.standings, by rw [recalcSeason_eq hts hof hws], ?_⟩
  intro r hr
  unfold newStandings assignPlaces at hr
  obtain ⟨x, hx, hrx⟩ := mem_assignPlacesFrom hr
  have hx2 : x ∈ buildRows ts s.standings (statsFor ts ws s.standings) :=
    (sortRows_perm _).subset hx
  obtain ⟨t, ht, hxt⟩ := List.mem_map.mp hx2
  have hrw : r.wins = x.wins := by rw [hrx]
  have hrl : r.losses = x.losses := by rw [hrx]
  have hrt : r.ties = x.ties := by rw [hrx]
  have hrn : r.name = x.name := by rw [hrx]
  have hxw : x.wins = ((statsFor ts ws s.standings t.name).getD zeroLine).wins := by
    rw [← hxt]
    rfl
  have hxl : x.losses = ((statsFor ts ws s.standings t.name).getD zeroLine).losses := by
    rw [← hxt]
    rfl
  have hxts : x.ties = ((statsFor ts ws s.standings t.name).getD zeroLine).ties := by
    rw [← hxt]
    rfl
  have hxn : x.name = t.name := by
    rw [← hxt]
    rfl
  rw [hrw, hrl, hrt, hrn, hxw, hxl, hxts, hxn, statline_getD_wlt]
  exact statsFor_wlt ts ws s.standings hself hfb t.name

/-- Witness for C1's amended statement at a concrete season. -/
theorem C1_witness :
    ∃ out, (recalcSeason exSeasonC1).standings = some out ∧
      ∀ r ∈ out, r.wins + r.losses + r.ties =
        playedCountFor [teamA, teamB] (exSeasonC1.weeks.getD []) r.name :=
  C1_conservation exSeasonC1 [teamA, teamB] _ rfl rfl rfl (by decide)
    (Or.inl (by with_unfolding_all decide))

/-- Counterexample to C1 as stated: in `exSeasonC1` team A appears in exactly
one regular-phase matchup with both scores present (the 0–0 of week 1), but
its `wins + losses + ties` comes out as 2 — the 0–0 game is not tallied while
the two playoff-week games are. -/
theorem C1_counterexample :
    ((recalcSeason exSeasonC1).standings.getD []).map
        (fun r => (r.name, r.wins + r.losses + r.ties)) = [("A", 2), ("B", 2)] ∧
      specPlayedRegularCountFor (exSeasonC1.weeks.getD []) "A" = 1 ∧
      (2 : Nat) ≠ 1 := by
  exact ⟨by with_unfolding_all decide, by with_unfolding_all decide, by decide⟩

/-! ## Claim C7 — idempotence -/

theorem stripPlace_wins {a b : Row} (h : stripPlace a = stripPlace b) : a.wins = b.wins := by
  have h2 := congrArg Row.wins h
  exact h2

theorem stripPlace_pf {a b : Row} (h : stripPlace a = stripPlace b) : a.pf = b.pf := by
  have h2 := congrArg Row.pf h
  exact h2

theorem stripPlace_name {a b : Row} (h : stripPlace a = stripPlace b) : a.name = b.name := by
  have h2 := congrArg Row.name h
  exact h2

theorem rowBefore_congr {a a' b b' : Row} (ha : stripPlace a = stripPlace a')
    (hb : stripPlace b = stripPlace b') : rowBefore a b = rowBefore a' b' := by
  unfold rowBefore
  rw [stripPlace_wins ha, stripPlace_wins hb, stripPlace_pf ha, stripPlace_pf hb]

theorem rowLE_congr {a a' b b' : Row} (ha : stripPlace a = stripPlace a')
    (hb : stripPlace b = stripPlace b') : rowLE a b ↔ rowLE a' b' := by
  unfold rowLE
  rw [rowBefore_congr hb ha]

theorem orderedInsert_forall₂ {x y : Row} {l l' : List Row}
    (hxy : stripPlace x = stripPlace y)
    (h : List.Forall₂ (fun a b => stripPlace a = stripPlace b) l l') :
    List.Forall₂ (fun a b => stripPlace a = stripPlace b)
      (List.orderedInsert rowLE x l) (List.orderedInsert rowLE y l') := by
  induction h with
  | nil => exact List.Forall₂.cons hxy List.Forall₂.nil
  | cons hz hrest ih =>
    rename_i z z' zs zs'
    by_cases hle : rowLE x z
    · rw [List.orderedInsert, if_pos hle, List.orderedInsert,
        if_pos ((rowLE_congr hxy hz).mp hle)]
      exact List.Forall₂.cons hxy (List.Forall₂.cons hz hrest)
    · rw [List.orderedInsert, if_neg hle, List.orderedInsert,
        if_neg (fun hc => hle ((rowLE_congr hxy hz).mpr hc))]
      exact List.Forall₂.cons hz ih

theorem sortRows_forall₂ {l l' : List Row}
    (h : List.Forall₂ (fun a b => stripPlace a = stripPlace b) l l') :
    List.Forall₂ (fun a b => stripPlace a = stripPlace b) (sortRows l) (sortRows l') := by
  induction h with
  | nil => exact List.Forall₂.nil
  | cons hx hrest ih => exact orderedInsert_forall₂ hx ih

theorem place_update_eq_of_strip {a b : Row} (h : stripPlace a = stripPlace b) (k : Nat) :
    ({ a with place := k } : Row) = { b with place := k } := by
  calc ({ a with place := k } : Row) = { stripPlace a with place := k } := rfl
    _ = { stripPlace b with place := k } := by rw [h]
    _ = { b with place := k } := rfl

theorem assignPlacesFrom_congr {l l' : List Row}
    (h : List.Forall₂ (fun a b => stripPlace a = stripPlace b) l l') :
    ∀ k, assignPlacesFrom k l = assignPlacesFrom k l' := by
  induction h with
  | nil => intro k; rfl
  | cons hx hrest ih =>
    intro k
    unfold assignPlacesFrom
    rw [place_update_eq_of_strip hx, ih (k + 1)]

theorem forall₂_map_of_forall {α β : Type} (l : List α) (f g : α → β)
    (R : β → β → Prop) (h : ∀ x ∈ l, R (f x) (g x)) :
    List.Forall₂ R (l.map f) (l.map g) := by
  induction l with
  | nil => exact List.Forall₂.nil
  | cons x xs ih =>
    exact List.Forall₂.cons (h x (List.mem_cons_self x xs))
      (ih fun y hy => h y (List.mem_cons_of_mem _ hy))

theorem find?_name_unique (l : List Row) (hnd : (l.map Row.name).Nodup) {r : Row}
    (hr : r ∈ l) (n : String) (hn : r.name = n) :
    l.find? (fun x => x.name = n) = some r := by
  induction l with
  | nil => cases hr
  | cons a as ih =>
    rcases List.mem_cons.mp hr with he | hm
    · subst he
      exact List.find?_cons_of_pos _ (by simpa using hn)
    · have hnd2 :=
        List.nodup_cons.mp (show (a.name :: as.map Row.name).Nodup from hnd)
      have ha : ¬ (a.name = n) := by
        intro hc
        apply hnd2.1
        rw [hc, ← hn]
        exact List.mem_map_of_mem Row.name hm
      rw [List.find?_cons_of_neg _ (by simpa using ha)]
      exact ih hnd2.2 hm

theorem newStandings_names_nodup (ts : List Team) (ws : List (String × Week))
    (old : Option (List Row)) (hnd : (ts.map Team.name).Nodup) :
    ((newStandings ts ws old).map Row.name).Nodup :=
  (newStandings_map_name_perm ts ws old).nodup_iff.mpr hnd

theorem orElse_self_idem {α : Type} (a : Option α) (f : Unit → Option α) :
    (a.orElse f).orElse f = a.orElse f := by
  rcases a with _ | v
  · show (f ()).orElse f = f ()
    rcases hf : f () with _ | w
    · exact hf
    · rfl
  · rfl

theorem applyFallback_cons (st : Stats) (r : Row) (rs : List Row) :
    applyFallback st (r :: rs) =
      applyFallback (updateStat st r.name fun _ => r.statline) rs :=
  rfl

theorem applyFallback_not_mem (rows : List Row) :
    ∀ (st : Stats) (n : String), n ∉ rows.map Row.name → applyFallback st rows n = st n := by
  induction rows with
  | nil => intro st n _; rfl
  | cons r rs ih =>
    intro st n hn
    rw [List.map_cons, List.mem_cons] at hn
    push_neg at hn
    rw [applyFallback_cons, ih _ n hn.2, updateStat_other _ _ _ _ hn.1]

theorem applyFallback_mem (rows : List Row) :
    (rows.map Row.name).Nodup → ∀ r : Row, r ∈ rows → ∀ st : Stats,
      applyFallback st rows r.name = (st r.name).map fun _ => r.statline := by
  induction rows with
  | nil => intro _ r hr; cases hr
  | cons a as ih =>
    intro hnd r hr st
    have hnd2 := List.nodup_cons.mp (show (a.name :: as.map Row.name).Nodup from hnd)
    rw [applyFallback_cons]
    rcases List.mem_cons.mp hr with he | hm
    · subst he
      rw [applyFallback_not_mem as _ r.name hnd2.1, updateStat_same]
    · have hne : r.name ≠ a.name := fun hc => hnd2.1 (by
        rw [← hc]
        exact List.mem_map_of_mem Row.name hm)
      rw [ih hnd2.2 r hm, updateStat_other _ _ _ _ hne]

/-- Every roster team has an output row that agrees with its freshly built
row on everything but `place`. -/
theorem newStandings_row_exists (ts : List Team) (ws : List (String × Week))
    (old : Option (List Row)) (t : Team) (ht : t ∈ ts) :
    ∃ y ∈ newStandings ts ws old, stripPlace y =
      stripPlace (mkRow t ((old.getD []).find? fun r => r.name = t.name)
        ((statsFor ts ws old t.name).getD zeroLine)) := by
  unfold newStandings assignPlaces
  have hx : mkRow t ((old.getD []).find? fun r => r.name = t.name)
      ((statsFor ts ws old t.name).getD zeroLine) ∈
      buildRows ts old (statsFor ts ws old) := by
    unfold buildRows
    exact List.mem_map_of_mem _ ht
  exact exists_mem_assignPlacesFrom 1 ((sortRows_perm _).mem_iff.mpr hx)

theorem newStandings_find (ts : List Team) (ws : List (String × Week))
    (old : Option (List Row)) (hnd : (ts.map Team.name).Nodup) (t : Team) (ht : t ∈ ts) :
    ∃ y, (newStandings ts ws old).find? (fun x => x.name = t.name) = some y ∧
      stripPlace y = stripPlace (mkRow t ((old.getD []).find? fun r => r.name = t.name)
        ((statsFor ts ws old t.name).getD zeroLine)) := by
  obtain ⟨y, hy, hys⟩ := newStandings_row_exists ts ws old t ht
  have hyn : y.name = t.name := stripPlace_name hys
  exact ⟨y, find?_name_unique _ (newStandings_names_nodup ts ws old hnd) hy t.name hyn, hys⟩

/-- The stats map of the second run equals the stats map of the first run:
either games were tallied (the fallback is inert both times), or the fallback
copies out of the first run's output exactly the values the first run put
there. -/
theorem statsFor_after (ts : List Team) (ws : List (String × Week))
    (old : Option (List Row)) (hnd : (ts.map Team.name).Nodup) :
    statsFor ts ws (some (newStandings ts ws old)) = statsFor ts ws old := by
  funext n
  by_cases hz : (processWeeks (initStats ts) ws).2 = 0
  · have hL : statsFor ts ws (some (newStandings ts ws old)) n =
        applyFallback (processWeeks (initStats ts) ws).1 (newStandings ts ws old) n := by
      unfold statsFor
      rw [if_pos hz]
    rw [hL]
    by_cases hmem : n ∈ ts.map Team.name
    · obtain ⟨t, ht, htn⟩ := List.mem_map.mp hmem
      obtain ⟨y, hy, hys⟩ := newStandings_row_exists ts ws old t ht
      have hyn : y.name = t.name := stripPlace_name hys
      have hfb := applyFallback_mem (newStandings ts ws old)
        (newStandings_names_nodup ts ws old hnd) y hy (processWeeks (initStats ts) ws).1
      rw [← htn, ← hyn, hfb]
      have hsome1 : ((processWeeks (initStats ts) ws).1 y.name).isSome = true := by
        rw [processWeeks_isSome, initStats_isSome_iff, hyn, htn]
        exact hmem
      obtain ⟨l, hl⟩ := Option.isSome_iff_exists.mp hsome1
      have hsome2 : (statsFor ts ws old y.name).isSome = true := by
        rw [statsFor_isSome, initStats_isSome_iff, hyn, htn]
        exact hmem
      obtain ⟨L, hLe⟩ := Option.isSome_iff_exists.mp hsome2
      rw [hl, hLe, Option.map_some']
      have hyx : y.statline = L := by
        have h4 : y.statline = (statsFor ts ws old t.name).getD zeroLine := by
          have h5 := congrArg Row.statline hys
          exact h5
        have h6 : (statsFor ts ws old t.name).getD zeroLine = L := by
          rw [hyn] at hLe
          rw [hLe]
          rfl
        exact h4.trans h6
      rw [hyx]
    · have hnone1 : applyFallback (processWeeks (initStats ts) ws).1
          (newStandings ts ws old) n = none := by
        rw [← Option.not_isSome_iff_eq_none, applyFallback_isSome, processWeeks_isSome,
          initStats_isSome_iff]
        simpa using hmem
      have hnone2 : statsFor ts ws old n = none := by
        rw [← Option.not_isSome_iff_eq_none, statsFor_isSome, initStats_isSome_iff]
        simpa using hmem
      rw [hnone1, hnone2]
  · have hL : statsFor ts ws (some (newStandings ts ws old)) n =
        (processWeeks (initStats ts) ws).1 n := by
      unfold statsFor
      rw [if_neg hz]
    have hR : statsFor ts ws old n = (processWeeks (initStats ts) ws).1 n := by
      unfold statsFor
      rw [if_neg hz]
    rw [hL, hR]

theorem mkRow_strip_absorb (t : Team) (e : Option Row) (L : StatLine) (y : Row)
    (hys : stripPlace y = stripPlace (mkRow t e L)) :
    stripPlace (mkRow t (some y) L) = stripPlace (mkRow t e L) := by
  have hyp : y.prevPlace = e.bind Row.prevPlace := by
    have h2 := congrArg Row.prevPlace hys
    exact h2
  have hym : y.meta = ((e.bind Row.meta).orElse fun _ => t.meta) := by
    have h2 := congrArg Row.meta hys
    exact h2
  show (⟨t.name, L.wins, L.losses, L.ties, L.pf, L.pa, 0, y.prevPlace,
      y.meta.orElse fun _ => t.meta⟩ : Row) =
    ⟨t.name, L.wins, L.losses, L.ties, L.pf, L.pa, 0, e.bind Row.prevPlace,
      (e.bind Row.meta).orElse fun _ => t.meta⟩
  rw [hyp, hym, orElse_self_idem]

/-- Re-running the engine on its own output reproduces that output, provided
the roster names are pairwise distinct. -/
theorem newStandings_idem (ts : List Team) (ws : List (String × Week))
    (old : Option (List Row)) (hnd : (ts.map Team.name).Nodup) :
    newStandings ts ws (some (newStandings ts ws old)) = newStandings ts ws old := by
  have hpre : List.Forall₂ (fun a b => stripPlace a = stripPlace b)
      (buildRows ts (some (newStandings ts ws old))
        (statsFor ts ws (some (newStandings ts ws old))))
      (buildRows ts old (statsFor ts ws old)) := by
    rw [statsFor_after ts ws old hnd]
    unfold buildRows
    refine forall₂_map_of_forall ts _ _ _ fun t ht => ?_
    obtain ⟨y, hfind, hys⟩ := newStandings_find ts ws old hnd t ht
    rw [Option.getD_some, hfind]
    exact mkRow_strip_absorb t _ _ y hys
  show assignPlaces (sortRows _) = newStandings ts ws old
  unfold newStandings assignPlaces
  exact assignPlacesFrom_congr (sortRows_forall₂ hpre) 1

/-- C7 as amended: the recompute is a pure function of the season (hence
deterministic), and — provided the roster names are pairwise distinct —
running it twice in a row yields exactly the same season as running it once
(no double-counting). -/
theorem C7_idempotent (s : Season) (hnd : ((s.teams.getD []).map Team.name).Nodup) :
    recalcSeason (recalcSeason s) = recalcSeason s := by
  rcases hts : s.teams with _ | ts
  · rw [recalcSeason_skip s (Or.inr (Or.inr hts)), recalcSeason_skip s (Or.inr (Or.inr hts))]
  · by_cases hof : s.oldFormat = true
    · rw [recalcSeason_skip s (Or.inl hof), recalcSeason_skip s (Or.inl hof)]
    · have hof' : s.oldFormat = false := by rwa [Bool.not_eq_true] at hof
      rcases hws : s.weeks with _ | ws
      · rw [recalcSeason_skip s (Or.inr (Or.inl hws)),
          recalcSeason_skip s (Or.inr (Or.inl hws))]
      · have hnd' : (ts.map Team.name).Nodup := by
          rw [hts] at hnd
          exact hnd
        rw [recalcSeason_eq hts hof' hws]
        rw [recalcSeason_eq
          (show ({ s with standings := some (newStandings ts ws s.standings) } :
            Season).teams = some ts from hts)
          (show ({ s with standings := some (newStandings ts ws s.standings)} :
            Season).oldFormat = false from hof')
          (show ({ s with standings := some (newStandings ts ws s.standings)} :
            Season).weeks = some ws from hws)]
        rw [show ({ s with standings := some (newStandings ts ws s.standings) } :
          Season).standings = some (newStandings ts ws s.standings) from rfl]
        rw [newStandings_idem ts ws s.standings hnd']

/-- Witness for C7's amended statement at a concrete season. -/
theorem C7_witness : recalcSeason (recalcSeason exSeasonC2) = recalcSeason exSeasonC2 :=
  C7_idempotent exSeasonC2 (by decide)

/-- Counterexample to C7 as stated: `exSeasonC7` carries two roster entries
that share the name "A" but differ in metadata; the first recompute keeps
both metadata values, the second overwrites the second row's metadata with
the first row's (via the by-name `find`), so the standings change between the
two runs. -/
theorem C7_counterexample :
    (recalcSeason (recalcSeason exSeasonC7)).standings ≠
        (recalcSeason exSeasonC7).standings ∧
      ((recalcSeason exSeasonC7).standings.getD []).map Row.meta =
        [some "ownerX", some "ownerY"] ∧
      ((recalcSeason (recalcSeason exSeasonC7)).standings.getD []).map Row.meta =
        [some "ownerX", some "ownerX"] := by
  exact ⟨by with_unfolding_all decide, by with_unfolding_all decide,
    by with_unfolding_all decide⟩

end FFApp
